import Mathlib

/-!
Verification of the temporal emotion-stabilization core of MoodMate
(`src/moodmate_final.py`), a shallow embedding of the `EmotionAnalyzer`
class (lines 132-206) and the configuration constants it uses.

Labels are Python strings, modelled as `String`. The rolling history is
`collections.deque(maxlen=ROLLING_WINDOW)`, modelled as a `List String`
with oldest element first. `statistics.mode` is modelled with the
Python >= 3.8 semantics: on nonempty data it returns the first mode
encountered in data order (never raising), and raises only on empty
data, which the `except` branch of `run` turns into `None`.
-/

/-! ## Configuration constants (lines 50-52) -/

/-- seconds between model calls (`ANALYZE_INTERVAL = 1.0`); time is not
modelled, the constant is kept for completeness of the config block. -/
def ANALYZE_INTERVAL_tenths : Nat := 10

/-- frames to keep for smoothing (`ROLLING_WINDOW = 7`). -/
def ROLLING_WINDOW : Nat := 7

/-- mode must appear this many times to be stable (`STABLE_THRESHOLD = 3`). -/
def STABLE_THRESHOLD : Nat := 3

/-! ## Label dictionaries (lines 55-83) -/

/-- the `EMOTION_MAP` dict (lines 55-63): association list from raw
lowercase emotion names to categories, in source order. -/
def EMOTION_MAP : List (String × String) :=
  [("happy", "happy"), ("sad", "sad"), ("neutral", "neutral"),
   ("angry", "angry"), ("surprise", "surprise"), ("fear", "fear"),
   ("disgust", "disgust")]

/-- keys of the `EMOJI` dict (lines 65-73), in insertion order; this is
what `random.choice(list(EMOJI.keys()))` draws from. -/
def EMOJI_KEYS : List String :=
  ["happy", "sad", "neutral", "angry", "surprise", "fear", "disgust"]

/-- keys of the `MOOD_TEXT` dict (lines 75-83), in insertion order; this
is what `random.choice(list(MOOD_TEXT.keys()))` draws from. -/
def MOOD_TEXT_KEYS : List String :=
  ["happy", "sad", "neutral", "angry", "surprise", "fear", "disgust"]

/-- the fixed closed seven-label set: the common key set of
`EMOTION_MAP`, `EMOJI` and `MOOD_TEXT`. -/
def EMOTION_LABELS : List String :=
  ["happy", "sad", "neutral", "angry", "surprise", "fear", "disgust"]

/-- dictionary lookup `EMOTION_MAP.get(k, "neutral")` with default. -/
def EMOTION_MAP_get (k : String) : String :=
  match EMOTION_MAP.find? (fun kv => kv.1 = k) with
  | some kv => kv.2
  | none => "neutral"

/-- the call `random.choice(l)`, modelled with an explicit random index
`r` supplied by the environment; `random.choice` on a nonempty list
always returns one of its elements. -/
def listChoice (l : List String) (r : Nat) : String :=
  l.getD (r % l.length) "neutral"

/-! ## Python `statistics.mode` and counting -/

/-- the count `sum(1 for x in w if x == v)`: occurrences of `v` in `w`. -/
def countOcc (w : List String) (v : String) : Nat :=
  (w.filter (fun x => x = v)).length

/-- the largest occurrence count of any element of `w` (0 for empty `w`). -/
def maxCount (w : List String) : Nat :=
  (w.map (countOcc w)).foldr max 0

/-- the call `statistics.mode(w)` under Python >= 3.8: the first element of `w`
(in data order) whose occurrence count is maximal; `none` models the
`StatisticsError` raised on empty data. -/
def statisticsMode (w : List String) : Option String :=
  w.find? (fun x => countOcc w x = maxCount w)

/-! ## The EmotionAnalyzer state (`__init__`, lines 133-140) -/

/-- state of the `EmotionAnalyzer` thread object: the rolling `window`
deque (oldest first), the `running` loop flag, the `paused` flag and
the `stable_emotion` verdict. The lock only serialises access and has
no sequential content. -/
structure EmotionAnalyzer where
  window : List String
  running : Bool
  paused : Bool
  stable_emotion : Option String
  deriving DecidableEq, Repr

/-- the constructor `__init__` (lines 133-140): empty deque,
`running = True`, `paused = False`, `stable_emotion = None`. -/
def initState : EmotionAnalyzer :=
  { window := [], running := true, paused := false, stable_emotion := none }

/-- append on `deque(maxlen=ROLLING_WINDOW)`: when the deque is at
capacity the oldest element is evicted before appending. -/
def dequeAppend (w : List String) (x : String) : List String :=
  if ROLLING_WINDOW ≤ w.length then w.tail ++ [x] else w ++ [x]

/-- the locked block of `run` (lines 152-162): append the prediction to
the window, recompute the mode (`except` giving `None`), and if the mode
is truthy and its count reaches `STABLE_THRESHOLD`, promote it to
`stable_emotion`. A Python string is truthy iff it is nonempty. -/
def record (s : EmotionAnalyzer) (pred : String) : EmotionAnalyzer :=
  let w := dequeAppend s.window pred
  match statisticsMode w with
  | some mode_val =>
      if mode_val ≠ "" ∧ STABLE_THRESHOLD ≤ countOcc w mode_val then
        { s with window := w, stable_emotion := some mode_val }
      else
        { s with window := w }
  | none => { s with window := w }

/-! ## `_predict` (lines 165-189) -/

/-- outcome of the external collaborators for one `_predict` call:
either DeepFace succeeds with a truthy dominant emotion string, or the
DeepFace call raises (fallback: random key of `EMOJI`), or DeepFace
succeeds but yields no usable dominant emotion, or DeepFace is not
available (both falling to the demo fallback: random key of
`MOOD_TEXT`). Random choices carry the environment's random index. -/
inductive PredictInput
  | deepfaceDominant (dom : String)
  | deepfaceError (r : Nat)
  | deepfaceNoDominant (r : Nat)
  | noDeepface (r : Nat)
  deriving DecidableEq, Repr

/-- the Python call `dom.lower()`, modelled over the character data
(the labels involved are ASCII). -/
def strLower (s : String) : String := ⟨s.data.map Char.toLower⟩

/-- the method `_predict`: map a truthy dominant emotion through
`EMOTION_MAP.get(dom.lower(), "neutral")`; on a DeepFace exception
return `random.choice(list(EMOJI.keys()))`; otherwise fall through to
the demo fallback `random.choice(list(MOOD_TEXT.keys()))`. Every branch
returns a label: the function is total, no failure propagates. -/
def predict : PredictInput → String
  | .deepfaceDominant dom => EMOTION_MAP_get (strLower dom)
  | .deepfaceError r => listChoice EMOJI_KEYS r
  | .deepfaceNoDominant r => listChoice MOOD_TEXT_KEYS r
  | .noDeepface r => listChoice MOOD_TEXT_KEYS r

/-! ## One iteration of the sampling loop (`run`, lines 142-163) -/

/-- what the environment supplies to one iteration of the sampling
loop: either `get_frame()` returned `None`, or it returned a frame
whose classification is described by a `PredictInput`. -/
inductive TickInput
  | noFrame
  | frame (p : PredictInput)
  deriving DecidableEq, Repr

/-- one iteration of the `while self.running` loop: nothing happens
when the loop has stopped; a paused iteration sleeps and `continue`s; a
`None` frame sleeps and `continue`s; otherwise the frame's prediction
is recorded under the lock. Sleeps are not modelled. -/
def tick (s : EmotionAnalyzer) (i : TickInput) : EmotionAnalyzer :=
  if s.running = false then s
  else if s.paused = true then s
  else
    match i with
    | .noFrame => s
    | .frame p => record s (predict p)

/-- iterated loop body over a list of tick inputs. -/
def ticks (s : EmotionAnalyzer) (is : List TickInput) : EmotionAnalyzer :=
  is.foldl tick s

/-! ## Public operations (lines 191-206) -/

/-- method `get_stable` (lines 191-193): read the verdict under the lock. -/
def get_stable (s : EmotionAnalyzer) : Option String :=
  s.stable_emotion

/-- method `pause` (lines 195-197): set `paused = True`; nothing else. -/
def pause (s : EmotionAnalyzer) : EmotionAnalyzer :=
  { s with paused := true }

/-- method `resume` (lines 199-203): set `paused = False`, clear the window,
reset `stable_emotion` to `None`. -/
def resume (s : EmotionAnalyzer) : EmotionAnalyzer :=
  { s with paused := false, window := [], stable_emotion := none }

/-- method `stop` (lines 205-206): clear the loop flag. -/
def stop (s : EmotionAnalyzer) : EmotionAnalyzer :=
  { s with running := false }

/-! ## Event traces and reachability -/

/-- an external event acting on the analyzer: one sampling-loop
iteration, or one of the control operations called from the UI thread. -/
inductive Event
  | tickE (i : TickInput)
  | pauseE
  | resumeE
  | stopE
  deriving DecidableEq, Repr

/-- apply one event. -/
def stepEvent (s : EmotionAnalyzer) : Event → EmotionAnalyzer
  | .tickE i => tick s i
  | .pauseE => pause s
  | .resumeE => resume s
  | .stopE => stop s

/-- run a trace of events from a state. -/
def runEvents (s : EmotionAnalyzer) (es : List Event) : EmotionAnalyzer :=
  es.foldl stepEvent s

/-- a state is reachable when some event trace from the initial state
produces it. -/
inductive Reachable : EmotionAnalyzer → Prop
  | base : Reachable initState
  | step (s : EmotionAnalyzer) (e : Event) : Reachable s → Reachable (stepEvent s e)

/-- every state produced by a trace from the initial state is reachable. -/
theorem reachable_runEvents (es : List Event) : Reachable (runEvents initState es) := by
  suffices h : ∀ (s : EmotionAnalyzer), Reachable s → Reachable (runEvents s es) from
    h initState Reachable.base
  induction es with
  | nil => intro s hs; exact hs
  | cons e es ih =>
      intro s hs
      exact ih (stepEvent s e) (Reachable.step s e hs)

/-! ## Basic facts about counting and the mode -/

/-- a value absent from the window has occurrence count zero. -/
theorem countOcc_eq_zero_of_not_mem {w : List String} {v : String}
    (h : v ∉ w) : countOcc w v = 0 := by
  unfold countOcc
  rw [List.length_eq_zero]
  rw [List.filter_eq_nil_iff]
  intro a ha
  simp only [decide_eq_true_eq]
  intro rfl_eq
  exact h (rfl_eq ▸ ha)

/-- the fold of `max` over a nonempty list of naturals is one of them. -/
theorem foldr_max_mem (ns : List Nat) (h : ns ≠ []) : ns.foldr max 0 ∈ ns := by
  induction ns with
  | nil => exact absurd rfl h
  | cons n ns ih =>
      cases ns with
      | nil => simp
      | cons m ms =>
          rcases max_choice n (List.foldr max 0 (m :: ms)) with h1 | h1 <;>
            rw [List.foldr_cons, h1]
          · exact List.mem_cons_self _ _
          · exact List.mem_cons_of_mem _ (ih (by simp))

/-- every element of a list of naturals is bounded by the fold of `max`. -/
theorem le_foldr_max (ns : List Nat) : ∀ n ∈ ns, n ≤ ns.foldr max 0 := by
  induction ns with
  | nil => intro n hn; cases hn
  | cons m ms ih =>
      intro n hn
      rcases List.mem_cons.mp hn with rfl | hn
      · exact le_max_left _ _
      · exact le_trans (ih n hn) (le_max_right _ _)

/-- the fold of `max` is bounded by any common upper bound. -/
theorem foldr_max_le (ns : List Nat) (b : Nat) (h : ∀ n ∈ ns, n ≤ b) :
    ns.foldr max 0 ≤ b := by
  induction ns with
  | nil => exact Nat.zero_le b
  | cons m ms ih =>
      rw [List.foldr_cons]
      exact max_le (h m (List.mem_cons_self _ _))
        (ih (fun n hn => h n (List.mem_cons_of_mem _ hn)))

/-- occurrence counts of window elements are bounded by `maxCount`. -/
theorem countOcc_le_maxCount {w : List String} {x : String} (h : x ∈ w) :
    countOcc w x ≤ maxCount w :=
  le_foldr_max _ _ (List.mem_map_of_mem _ h)

/-- a nonempty window has an element realising `maxCount`. -/
theorem exists_countOcc_eq_maxCount {w : List String} (h : w ≠ []) :
    ∃ x ∈ w, countOcc w x = maxCount w := by
  have hmem : maxCount w ∈ w.map (countOcc w) := by
    apply foldr_max_mem
    simpa using h
  rcases List.mem_map.mp hmem with ⟨x, hx, hcount⟩
  exact ⟨x, hx, hcount⟩

/-- the mode of a nonempty window exists. -/
theorem statisticsMode_isSome {w : List String} (h : w ≠ []) :
    ∃ m, statisticsMode w = some m := by
  rcases exists_countOcc_eq_maxCount h with ⟨x, hx, hcount⟩
  unfold statisticsMode
  rcases hfind : w.find? (fun y => countOcc w y = maxCount w) with _ | m
  · exfalso
    have := List.find?_eq_none.mp hfind x hx
    simp [hcount] at this
  · exact ⟨m, rfl⟩

/-- the mode is an element of the window. -/
theorem statisticsMode_mem {w : List String} {m : String}
    (h : statisticsMode w = some m) : m ∈ w :=
  List.mem_of_find?_eq_some h

/-- the mode realises the maximal occurrence count. -/
theorem statisticsMode_count {w : List String} {m : String}
    (h : statisticsMode w = some m) : countOcc w m = maxCount w := by
  have := List.find?_some h
  simpa using this

/-- appending to the bounded deque never grows it past capacity. -/
theorem dequeAppend_length_le {w : List String} (x : String)
    (h : w.length ≤ ROLLING_WINDOW) :
    (dequeAppend w x).length ≤ ROLLING_WINDOW := by
  unfold dequeAppend
  unfold ROLLING_WINDOW at *
  split
  · rename_i hge
    simp only [List.length_append, List.length_tail, List.length_cons,
      List.length_nil]
    omega
  · rename_i hlt
    simp only [List.length_append, List.length_cons, List.length_nil]
    omega

/-- the deque is nonempty after an append. -/
theorem dequeAppend_ne_nil (w : List String) (x : String) :
    dequeAppend w x ≠ [] := by
  unfold dequeAppend
  split <;> simp

/-- elements of the deque after an append come from the old deque or are
the appended element. -/
theorem mem_dequeAppend {w : List String} {x y : String}
    (h : y ∈ dequeAppend w x) : y ∈ w ∨ y = x := by
  unfold dequeAppend at h
  split at h <;> rcases List.mem_append.mp h with h1 | h1
  · exact Or.inl (List.mem_of_mem_tail h1)
  · exact Or.inr (List.mem_singleton.mp h1)
  · exact Or.inl h1
  · exact Or.inr (List.mem_singleton.mp h1)

/-! ## Behaviour of `record` -/

/-- recording always appends to the window (with eviction), in every
branch of the mode computation. -/
theorem record_window (s : EmotionAnalyzer) (x : String) :
    (record s x).window = dequeAppend s.window x := by
  simp only [record]
  split
  · split <;> rfl
  · rfl

/-- recording never touches the `running` and `paused` flags. -/
theorem record_flags (s : EmotionAnalyzer) (x : String) :
    (record s x).running = s.running ∧ (record s x).paused = s.paused := by
  simp only [record]
  split
  · split <;> exact ⟨rfl, rfl⟩
  · exact ⟨rfl, rfl⟩

/-- when the recomputed mode is truthy and reaches the threshold, it is
promoted to the stable verdict. -/
theorem record_stable_promote {s : EmotionAnalyzer} {x m : String}
    (hm : statisticsMode (dequeAppend s.window x) = some m)
    (hne : m ≠ "")
    (hcnt : STABLE_THRESHOLD ≤ countOcc (dequeAppend s.window x) m) :
    (record s x).stable_emotion = some m := by
  simp only [record]
  rw [hm]
  dsimp only
  rw [if_pos ⟨hne, hcnt⟩]

/-- when the recomputed mode misses the threshold, the stable verdict is
left unchanged. -/
theorem record_stable_skip {s : EmotionAnalyzer} {x m : String}
    (hm : statisticsMode (dequeAppend s.window x) = some m)
    (hcnt : countOcc (dequeAppend s.window x) m < STABLE_THRESHOLD) :
    (record s x).stable_emotion = s.stable_emotion := by
  simp only [record]
  rw [hm]
  dsimp only
  rw [if_neg]
  intro hc
  exact absurd hc.2 (Nat.not_le.mpr hcnt)

/-- case split on one `record` call: either the verdict is untouched, or
it is promoted to the mode of the new window, the mode being truthy and
at the threshold. -/
theorem record_stable_cases (s : EmotionAnalyzer) (x : String) :
    (record s x).stable_emotion = s.stable_emotion ∨
    ∃ m, statisticsMode (dequeAppend s.window x) = some m ∧ m ≠ "" ∧
      STABLE_THRESHOLD ≤ countOcc (dequeAppend s.window x) m ∧
      (record s x).stable_emotion = some m := by
  rcases hm : statisticsMode (dequeAppend s.window x) with _ | m
  · left
    simp only [record]
    rw [hm]
  · by_cases hc : m ≠ "" ∧ STABLE_THRESHOLD ≤ countOcc (dequeAppend s.window x) m
    · right
      exact ⟨m, rfl, hc.1, hc.2, record_stable_promote hm hc.1 hc.2⟩
    · left
      simp only [record]
      rw [hm]
      dsimp only
      rw [if_neg hc]

/-- a non-null verdict never reverts to null through a `record` call. -/
theorem record_stable_ne_none {s : EmotionAnalyzer} (x : String)
    (h : s.stable_emotion ≠ none) : (record s x).stable_emotion ≠ none := by
  rcases record_stable_cases s x with hc | ⟨m, _, _, _, hc⟩
  · rw [hc]; exact h
  · rw [hc]; exact Option.some_ne_none m

/-! ## Labels produced by `_predict` -/

/-- every label in the seven-label set is a nonempty (truthy) string. -/
theorem label_ne_empty {x : String} (h : x ∈ EMOTION_LABELS) : x ≠ "" := by
  unfold EMOTION_LABELS at h
  fin_cases h <;> decide

/-- the `EMOTION_MAP` lookup with default always lands in the
seven-label set. -/
theorem EMOTION_MAP_get_mem (k : String) : EMOTION_MAP_get k ∈ EMOTION_LABELS := by
  unfold EMOTION_MAP_get
  rcases hf : EMOTION_MAP.find? (fun kv => kv.1 = k) with _ | kv
  · rw [hf]
    decide
  · rw [hf]
    have hkv : kv ∈ EMOTION_MAP := List.mem_of_find?_eq_some hf
    unfold EMOTION_MAP at hkv
    fin_cases hkv <;> decide

/-- a random choice from a nonempty list is an element of it. -/
theorem listChoice_mem {l : List String} (r : Nat) (h : l ≠ []) :
    listChoice l r ∈ l := by
  unfold listChoice
  have hlen : 0 < l.length := List.length_pos.mpr h
  have hlt : r % l.length < l.length := Nat.mod_lt _ hlen
  rw [List.getD_eq_getElem l _ hlt]
  exact List.getElem_mem hlt

/-- every label the per-frame prediction can produce is in the
seven-label set, whichever branch of `_predict` is taken. -/
theorem predict_mem (p : PredictInput) : predict p ∈ EMOTION_LABELS := by
  cases p with
  | deepfaceDominant dom => exact EMOTION_MAP_get_mem (strLower dom)
  | deepfaceError r =>
      have h := listChoice_mem (l := EMOJI_KEYS) r (by decide)
      have he : EMOJI_KEYS = EMOTION_LABELS := rfl
      rw [he] at h
      exact h
  | deepfaceNoDominant r =>
      have h := listChoice_mem (l := MOOD_TEXT_KEYS) r (by decide)
      have he : MOOD_TEXT_KEYS = EMOTION_LABELS := rfl
      rw [he] at h
      exact h
  | noDeepface r =>
      have h := listChoice_mem (l := MOOD_TEXT_KEYS) r (by decide)
      have he : MOOD_TEXT_KEYS = EMOTION_LABELS := rfl
      rw [he] at h
      exact h

/-! ## Behaviour of `tick` -/

/-- a loop iteration after `stop` changes nothing. -/
theorem tick_not_running {s : EmotionAnalyzer} (i : TickInput)
    (h : s.running = false) : tick s i = s := by
  unfold tick
  rw [if_pos h]

/-- a loop iteration while paused changes nothing. -/
theorem tick_paused {s : EmotionAnalyzer} (i : TickInput)
    (h : s.paused = true) : tick s i = s := by
  unfold tick
  by_cases hr : s.running = false
  · rw [if_pos hr]
  · rw [if_neg hr, if_pos h]

/-- a loop iteration without a frame changes nothing. -/
theorem tick_noFrame (s : EmotionAnalyzer) : tick s .noFrame = s := by
  unfold tick
  split
  · rfl
  · split <;> rfl

/-- a running, unpaused loop iteration with a frame records the
prediction. -/
theorem tick_frame {s : EmotionAnalyzer} (p : PredictInput)
    (hr : s.running = true) (hp : s.paused = false) :
    tick s (.frame p) = record s (predict p) := by
  unfold tick
  rw [if_neg (by simp [hr]), if_neg (by simp [hp])]

/-- any number of loop iterations while paused changes nothing. -/
theorem ticks_of_paused (is : List TickInput) {s : EmotionAnalyzer}
    (h : s.paused = true) : ticks s is = s := by
  induction is generalizing s with
  | nil => rfl
  | cons i is ih =>
      show List.foldl tick (tick s i) is = s
      rw [tick_paused i h]
      exact ih h

/-! ## The preserved state invariant -/

/-- invariant maintained by every operation: the window respects the
capacity, holds only labels of the seven-label set, and the verdict is
null or one of those labels. -/
def WindowInv (s : EmotionAnalyzer) : Prop :=
  s.window.length ≤ ROLLING_WINDOW ∧
  (∀ x ∈ s.window, x ∈ EMOTION_LABELS) ∧
  (∀ v, s.stable_emotion = some v → v ∈ EMOTION_LABELS)

/-- the initial state satisfies the invariant. -/
theorem windowInv_init : WindowInv initState := by
  refine ⟨by decide, ?_, ?_⟩
  · intro x hx
    cases hx
  · intro v hv
    cases hv

/-- every event preserves the invariant. -/
theorem windowInv_step (s : EmotionAnalyzer) (e : Event)
    (h : WindowInv s) : WindowInv (stepEvent s e) := by
  cases e with
  | tickE i =>
      show WindowInv (tick s i)
      by_cases hr : s.running = false
      · rw [tick_not_running i hr]; exact h
      · by_cases hp : s.paused = true
        · rw [tick_paused i hp]; exact h
        · cases i with
          | noFrame => rw [tick_noFrame]; exact h
          | frame p =>
              rw [tick_frame p (by simpa using hr) (by simpa using hp)]
              have hmem : ∀ x ∈ dequeAppend s.window (predict p),
                  x ∈ EMOTION_LABELS := by
                intro x hx
                rcases mem_dequeAppend hx with hx | rfl
                · exact h.2.1 x hx
                · exact predict_mem p
              refine ⟨?_, ?_, ?_⟩
              · rw [record_window]
                exact dequeAppend_length_le _ h.1
              · intro x hx
                rw [record_window] at hx
                exact hmem x hx
              · intro v hv
                rcases record_stable_cases s (predict p) with hc | ⟨m, hm, _, _, hc⟩
                · rw [hc] at hv
                  exact h.2.2 v hv
                · rw [hc] at hv
                  injection hv with hv'
                  exact hv' ▸ hmem m (statisticsMode_mem hm)
  | pauseE => exact ⟨h.1, h.2.1, h.2.2⟩
  | resumeE =>
      refine ⟨?_, ?_, ?_⟩
      · show ([] : List String).length ≤ ROLLING_WINDOW
        decide
      · intro x hx
        cases hx
      · intro v hv
        cases hv
  | stopE => exact ⟨h.1, h.2.1, h.2.2⟩

/-- every reachable state satisfies the invariant. -/
theorem reachable_windowInv {s : EmotionAnalyzer} (h : Reachable s) :
    WindowInv s := by
  induction h with
  | base => exact windowInv_init
  | step s e _ ih => exact windowInv_step s e ih

/-! ## Dominance and the mode -/

/-- when a predicate holds for exactly one element of a list, `find?`
returns that element. -/
theorem find_first_unique (w : List String) (p : String → Bool) (L : String)
    (hmem : L ∈ w) (hpL : p L = true)
    (huniq : ∀ y ∈ w, p y = true → y = L) :
    w.find? p = some L := by
  induction w with
  | nil => cases hmem
  | cons a w ih =>
      by_cases ha : p a = true
      · have haL : a = L := huniq a (List.mem_cons_self a w) ha
        rw [List.find?_cons_of_pos _ ha, haL]
      · rw [List.find?_cons_of_neg _ ha]
        apply ih
        · rcases List.mem_cons.mp hmem with rfl | h1
          · exact absurd hpL ha
          · exact h1
        · intro y hy hpy
          exact huniq y (List.mem_cons_of_mem a hy) hpy

/-- a strictly dominant label realises the maximal count. -/
theorem maxCount_eq_of_dominant {w : List String} {L : String} (hmem : L ∈ w)
    (hdom : ∀ y ∈ w, y ≠ L → countOcc w y < countOcc w L) :
    maxCount w = countOcc w L := by
  apply le_antisymm
  · apply foldr_max_le
    intro n hn
    rcases List.mem_map.mp hn with ⟨y, hy, rfl⟩
    by_cases hyL : y = L
    · rw [hyL]
    · exact le_of_lt (hdom y hy hyL)
  · exact countOcc_le_maxCount hmem

/-- a strictly dominant label is the mode. -/
theorem statisticsMode_of_dominant {w : List String} {L : String} (hmem : L ∈ w)
    (hdom : ∀ y ∈ w, y ≠ L → countOcc w y < countOcc w L) :
    statisticsMode w = some L := by
  unfold statisticsMode
  apply find_first_unique _ _ _ hmem
  · simp [maxCount_eq_of_dominant hmem hdom]
  · intro y hy hpy
    by_contra hyL
    have h1 : countOcc w y < countOcc w L := hdom y hy hyL
    have h2 : countOcc w y = maxCount w := by simpa using hpy
    rw [maxCount_eq_of_dominant hmem hdom] at h2
    omega

/-- a pointwise count bound over window elements extends to all labels,
absent labels having count zero. -/
theorem countOcc_lt_of_mem_bound {w : List String} {n : Nat} (hn : 0 < n)
    (h : ∀ x ∈ w, countOcc w x < n) : ∀ v, countOcc w v < n := by
  intro v
  by_cases hv : v ∈ w
  · exact h v hv
  · rw [countOcc_eq_zero_of_not_mem hv]
    exact hn

/-! ## Concrete traces used in the scenarios -/

/-- sampling-loop event whose frame DeepFace classifies as `lab`. -/
def tickOf (lab : String) : Event := .tickE (.frame (.deepfaceDominant lab))

/-- rolling-history trace for the claim C3 counterexample: three happy
ticks promote the verdict, then six further ticks wash every trace of
evidence out of the seven-slot window while the verdict persists. -/
def c3Trace : List Event :=
  [tickOf "happy", tickOf "happy", tickOf "happy", tickOf "sad",
   tickOf "neutral", tickOf "angry", tickOf "fear", tickOf "sad",
   tickOf "neutral"]

/-- record trace for the claim C4 counterexample: four sad ticks then
three happy ticks. -/
def c4Trace : List Event :=
  [tickOf "sad", tickOf "sad", tickOf "sad", tickOf "sad",
   tickOf "happy", tickOf "happy", tickOf "happy"]

/-- first five calls of the spec scenario for claim C8. -/
def c8Trace5 : List Event :=
  [tickOf "happy", tickOf "sad", tickOf "happy", tickOf "neutral",
   tickOf "happy"]

/-- all seven calls of the spec scenario for claim C8. -/
def c8Trace7 : List Event :=
  c8Trace5 ++ [tickOf "sad", tickOf "sad"]

/-! ## The claims -/

/-- Claim C1: while the tracker is running (loop alive, not paused), a
sampling tick that records a label appends it to the history (evicting
the oldest entry at capacity), the mode of the new history is
recomputed and always exists, the verdict is set to the mode exactly
when the mode's count reaches `STABLE_THRESHOLD` and is left unchanged
otherwise, and a non-null verdict never reverts to null. -/
theorem claim_C1_record (s : EmotionAnalyzer) (p : PredictInput)
    (hs : Reachable s) (hr : s.running = true) (hp : s.paused = false) :
    (tick s (.frame p)).window = dequeAppend s.window (predict p) ∧
    (∃ m, statisticsMode (tick s (.frame p)).window = some m) ∧
    (∀ m, statisticsMode (tick s (.frame p)).window = some m →
      STABLE_THRESHOLD ≤ countOcc (tick s (.frame p)).window m →
      (tick s (.frame p)).stable_emotion = some m) ∧
    (∀ m, statisticsMode (tick s (.frame p)).window = some m →
      countOcc (tick s (.frame p)).window m < STABLE_THRESHOLD →
      (tick s (.frame p)).stable_emotion = s.stable_emotion) ∧
    (s.stable_emotion ≠ none → (tick s (.frame p)).stable_emotion ≠ none) := by
  rw [tick_frame p hr hp, record_window]
  refine ⟨rfl, ?_, ?_, ?_, ?_⟩
  · exact statisticsMode_isSome (dequeAppend_ne_nil _ _)
  · intro m hm hcnt
    have hlab : m ∈ EMOTION_LABELS := by
      rcases mem_dequeAppend (statisticsMode_mem hm) with h1 | rfl
      · exact (reachable_windowInv hs).2.1 m h1
      · exact predict_mem p
    exact record_stable_promote hm (label_ne_empty hlab) hcnt
  · intro m hm hcnt
    exact record_stable_skip hm hcnt
  · intro h
    exact record_stable_ne_none _ h

/-- witness for claim C1 at the initial state and a happy frame. -/
theorem claim_C1_record_witness :
    Reachable initState ∧ initState.running = true ∧
    initState.paused = false ∧
    (tick initState (.frame (.deepfaceDominant "happy"))).window =
      dequeAppend initState.window (predict (.deepfaceDominant "happy")) :=
  ⟨Reachable.base, rfl, rfl,
    (claim_C1_record initState (.deepfaceDominant "happy")
      Reachable.base rfl rfl).1⟩

/-- Claim C2: for every sequence of events (sampling ticks with any
interleaving of pause, resume and stop), the history length never
exceeds the rolling window size. -/
theorem claim_C2_window_bound (es : List Event) :
    (runEvents initState es).window.length ≤ ROLLING_WINDOW :=
  (reachable_windowInv (reachable_runEvents es)).1

/-- Claim C3 counterexample: after `c3Trace` the verdict is non-null
(it is "happy") although no label occurs in the history
`STABLE_THRESHOLD` or more times - in particular no label that is the
mode does, refuting the claimed invariant at a reachable state. -/
theorem claim_C3_counterexample :
    (runEvents initState c3Trace).stable_emotion = some "happy" ∧
    ∀ v, countOcc (runEvents initState c3Trace).window v < STABLE_THRESHOLD := by
  constructor
  · decide
  · exact countOcc_lt_of_mem_bound (by decide) (by decide)

/-- Claim C3 (amended): at every reachable state, a non-null verdict
was promoted at some reachable moment at which it was the mode of the
then-current history with occurrence count at least `STABLE_THRESHOLD`
(the verdict may outlive that evidence, but cannot arise without it). -/
theorem claim_C3_amended_verdict_evidence (s : EmotionAnalyzer)
    (hs : Reachable s) :
    ∀ v, s.stable_emotion = some v →
      ∃ t, Reachable t ∧ t.stable_emotion = some v ∧
        statisticsMode t.window = some v ∧
        STABLE_THRESHOLD ≤ countOcc t.window v := by
  induction hs with
  | base =>
      intro v h
      simp [initState] at h
  | step s e hs ih =>
      intro v h
      cases e with
      | tickE i =>
          by_cases hrf : s.running = false
          · rw [show stepEvent s (.tickE i) = tick s i from rfl,
              tick_not_running i hrf] at h
            exact ih v h
          · by_cases hpt : s.paused = true
            · rw [show stepEvent s (.tickE i) = tick s i from rfl,
                tick_paused i hpt] at h
              exact ih v h
            · cases i with
              | noFrame =>
                  rw [show stepEvent s (.tickE .noFrame) = tick s .noFrame
                    from rfl, tick_noFrame] at h
                  exact ih v h
              | frame p =>
                  have ht : stepEvent s (.tickE (.frame p)) =
                      record s (predict p) :=
                    tick_frame p (by simpa using hrf) (by simpa using hpt)
                  rw [ht] at h
                  rcases record_stable_cases s (predict p) with
                    hc | ⟨m, hm, _, hcnt, hc⟩
                  · rw [hc] at h
                    exact ih v h
                  · rw [hc] at h
                    injection h with h'
                    subst h'
                    refine ⟨record s (predict p), ?_, hc, ?_, ?_⟩
                    · have hstep := Reachable.step s (.tickE (.frame p)) hs
                      rwa [ht] at hstep
                    · rw [record_window]
                      exact hm
                    · rw [record_window]
                      exact hcnt
      | pauseE => exact ih v h
      | resumeE =>
          rw [show stepEvent s .resumeE = resume s from rfl] at h
          simp [resume] at h
      | stopE => exact ih v h

/-- witness for the amended claim C3 after three happy ticks. -/
theorem claim_C3_amended_witness :
    Reachable (runEvents initState [tickOf "happy", tickOf "happy",
      tickOf "happy"]) ∧
    ∃ t, Reachable t ∧ t.stable_emotion = some "happy" ∧
      statisticsMode t.window = some "happy" ∧
      STABLE_THRESHOLD ≤ countOcc t.window "happy" :=
  ⟨reachable_runEvents [tickOf "happy", tickOf "happy", tickOf "happy"],
    claim_C3_amended_verdict_evidence
      (runEvents initState [tickOf "happy", tickOf "happy", tickOf "happy"])
      (reachable_runEvents [tickOf "happy", tickOf "happy", tickOf "happy"])
      "happy" (by decide)⟩

/-- Claim C4 counterexample: in `c4Trace` the label "happy" is recorded
three times within its last three consecutive calls (a span well under
the window size of seven), yet afterwards `currentVerdict` is "sad",
not "happy", because "sad" still dominates the history. -/
theorem claim_C4_counterexample :
    c4Trace.drop 4 = [tickOf "happy", tickOf "happy", tickOf "happy"] ∧
    get_stable (runEvents initState c4Trace) = some "sad" ∧
    get_stable (runEvents initState c4Trace) ≠ some "happy" := by
  refine ⟨rfl, by decide, by decide⟩

/-- Claim C4 (amended): if after a record call some label occurs at
least `STABLE_THRESHOLD` times in the history and strictly more often
than every other label of the history, then `currentVerdict` returns
that label. -/
theorem claim_C4_amended_dominant_promoted (s : EmotionAnalyzer)
    (x L : String) (hL : L ≠ "")
    (h3 : STABLE_THRESHOLD ≤ countOcc (dequeAppend s.window x) L)
    (hdom : ∀ y ∈ dequeAppend s.window x, y ≠ L →
      countOcc (dequeAppend s.window x) y <
        countOcc (dequeAppend s.window x) L) :
    get_stable (record s x) = some L := by
  have hmem : L ∈ dequeAppend s.window x := by
    by_contra hno
    rw [countOcc_eq_zero_of_not_mem hno] at h3
    exact absurd h3 (by decide)
  exact record_stable_promote (statisticsMode_of_dominant hmem hdom) hL h3

/-- witness for the amended claim C4: a third happy sample promotes
"happy". -/
theorem claim_C4_amended_witness :
    STABLE_THRESHOLD ≤ countOcc (dequeAppend ["happy", "happy"] "happy")
      "happy" ∧
    get_stable (record
      { window := ["happy", "happy"], running := true, paused := false,
        stable_emotion := none } "happy") = some "happy" :=
  ⟨by decide, claim_C4_amended_dominant_promoted _ "happy" "happy"
    (by decide) (by decide) (by decide)⟩

/-- Claim C5: for every prior state of the tracker - in particular one
that had reached verdict "sad" - immediately after `resume` the tracker
is running (not paused), the history is empty and the verdict is null;
and after `pause`, `resume` and a single recorded "happy" sample the
verdict is still null, one sample being below the threshold. -/
theorem claim_C5_resume_reset (s : EmotionAnalyzer) :
    (resume s).paused = false ∧ (resume s).window = [] ∧
    get_stable (resume s) = none ∧
    get_stable (tick (resume (pause s))
      (.frame (.deepfaceDominant "happy"))) = none := by
  rcases s with ⟨w, run, pau, st⟩
  refine ⟨rfl, rfl, rfl, ?_⟩
  cases run
  · rfl
  · rfl

/-- Claim C6: `pause` sets the paused flag without clearing history or
verdict, and any number of subsequent sampling ticks leaves history,
verdict and the paused flag unchanged (the loop is a no-op while
paused). -/
theorem claim_C6_pause_noop (s : EmotionAnalyzer) (is : List TickInput) :
    (pause s).paused = true ∧
    (pause s).window = s.window ∧
    get_stable (pause s) = get_stable s ∧
    (ticks (pause s) is).window = s.window ∧
    get_stable (ticks (pause s) is) = get_stable s ∧
    (ticks (pause s) is).paused = true := by
  have hfix : ticks (pause s) is = pause s := ticks_of_paused is rfl
  rw [hfix]
  exact ⟨rfl, rfl, rfl, rfl, rfl, rfl⟩

/-- Claim C7: `pause` and `resume` are idempotent - calling either
twice in a row yields the same state as calling it once. -/
theorem claim_C7_idempotent (s : EmotionAnalyzer) :
    pause (pause s) = pause s ∧ resume (resume s) = resume s :=
  ⟨rfl, rfl⟩

/-- Claim C8: for the scenario of window 7 and threshold 3 with record
sequence happy, sad, happy, neutral, happy, sad, sad from a fresh
tracker, the verdict after the fifth call is "happy"; after the seventh
call "happy" and "sad" are tied at three occurrences each and the
outcome is deterministic (the embedding is a pure function of the
trace): the verdict is still "happy" - the tie promotes no new label,
whether the tie makes the mode call raise (pre-3.8 Python, promotion
skipped) or return the first-encountered mode "happy" (Python >= 3.8,
re-promoting the incumbent), so the result is reproducible across
runs. -/
theorem claim_C8_scenario :
    get_stable (runEvents initState c8Trace5) = some "happy" ∧
    countOcc (runEvents initState c8Trace7).window "happy" = 3 ∧
    countOcc (runEvents initState c8Trace7).window "sad" = 3 ∧
    get_stable (runEvents initState c8Trace7) = some "happy" := by
  refine ⟨by decide, by decide, by decide, by decide⟩

/-- Claim C9: failures inside the sampling loop are contained: a tick
with no frame leaves the entire state unchanged (nothing recorded), and
a tick whose classifier call raises does not propagate the failure
(`tick` is total) but records the designated fallback label - a random
key of `EMOJI`, hence one of the seven labels. -/
theorem claim_C9_failures_contained (s : EmotionAnalyzer) (r : Nat)
    (hr : s.running = true) (hp : s.paused = false) :
    tick s .noFrame = s ∧
    (tick s (.frame (.deepfaceError r))).window =
      dequeAppend s.window (listChoice EMOJI_KEYS r) ∧
    listChoice EMOJI_KEYS r ∈ EMOTION_LABELS := by
  refine ⟨tick_noFrame s, ?_, ?_⟩
  · rw [tick_frame _ hr hp, record_window]
    rfl
  · have h := listChoice_mem (l := EMOJI_KEYS) r (by decide)
    have he : EMOJI_KEYS = EMOTION_LABELS := rfl
    rw [he] at h
    exact h

/-- witness for claim C9 at the initial state. -/
theorem claim_C9_witness :
    initState.running = true ∧ initState.paused = false ∧
    tick initState .noFrame = initState :=
  ⟨rfl, rfl, (claim_C9_failures_contained initState 0 rfl rfl).1⟩

/-- Claim C10: every label `_predict` can produce lies in the fixed
closed seven-label set, and consequently every state reached by a trace
from the initial state has a history holding only these labels and a
verdict that is null or one of them. -/
theorem claim_C10_closed_labels (p : PredictInput) (es : List Event) :
    predict p ∈ EMOTION_LABELS ∧
    (∀ x ∈ (runEvents initState es).window, x ∈ EMOTION_LABELS) ∧
    (∀ v, (runEvents initState es).stable_emotion = some v →
      v ∈ EMOTION_LABELS) :=
  ⟨predict_mem p,
    (reachable_windowInv (reachable_runEvents es)).2.1,
    (reachable_windowInv (reachable_runEvents es)).2.2⟩
